import Mathlib

/-!
Verification of the `StoredValue` arena from `leptos_reactive/src/stored_value.rs`
(the nightly variant: type-tagged, pointer-identity-checked, downcast-capable).

The embedding models:
* the generational slot arena (`slotmap` keys: index + generation, per spec §4.1);
* the `Rc<RefCell<dyn Any>>` cell: an allocation address, a runtime borrow flag,
  and an erased payload drawn from a small closed universe of storable values;
* the ambient runtime registry consulted by `with_runtime` (modelled from the
  spec, since `runtime.rs` is not part of the excerpt);
* every handle operation of `StoredValue`: `store_value`, `get_value` /
  `try_get_value`, `with_value` / `try_with_value`, `update_value` /
  `try_update_value`, `set_value` / `try_set_value`, `dispose`, `downcast`,
  and the internal `get_inner`.

Machine panics (`expect` failures and `RefCell` borrow violations) are made
explicit with `Except Panic`.
-/

namespace LeptosStored

/-- Runtime type tags standing in for Rust `TypeId`s over a closed universe of
storable payload types. -/
inductive Ty where
  | tInt
  | tStr
  | tBool
  deriving DecidableEq, Repr

/-- The closed universe of storable payload values (contents of `dyn Any`). -/
inductive Val where
  | vInt (n : Int)
  | vStr (s : String)
  | vBool (b : Bool)
  deriving DecidableEq, Repr

/-- The `type_id()` of a payload value. -/
def Val.tyId : Val → Ty
  | .vInt _ => .tInt
  | .vStr _ => .tStr
  | .vBool _ => .tBool

/-- The borrow state of a `RefCell`: unborrowed, transiently read-borrowed, or
mutably borrowed (a write guard is live). -/
inductive BorrowFlag where
  | free
  | reading (n : Nat)
  | writing
  deriving DecidableEq, Repr

/-- One `Rc<RefCell<dyn Any>>` cell: the address of the allocation (what the
handle caches as `NonNull<RefCell<T>>`), the `RefCell` borrow flag, and the
erased payload. -/
structure Cell where
  ptr : Nat
  flag : BorrowFlag
  val : Val
  deriving DecidableEq, Repr

/-- A generational slotmap key (`StoredValueId`): slot index plus generation. -/
structure Key where
  idx : Nat
  gen : Nat
  deriving DecidableEq, Repr

/-- One arena slot: its current generation and its occupant, if any. -/
structure Slot where
  gen : Nat
  content : Option Cell
  deriving DecidableEq, Repr

/-- The slot arena (`SlotMap<StoredValueId, Rc<RefCell<dyn Any>>>`), spec §4.1:
a generation-checked keyed collection. -/
structure SlotMap where
  slots : List Slot
  deriving DecidableEq, Repr

/-- Insertion worker: reuse the first vacant index at its current (already
bumped) generation, else append a fresh slot at generation 0. -/
def SlotMap.insertAux (c : Cell) : List Slot → Key × List Slot
  | [] => (⟨0, 0⟩, [⟨0, some c⟩])
  | sl :: rest =>
    if sl.content.isNone then
      (⟨0, sl.gen⟩, ⟨sl.gen, some c⟩ :: rest)
    else
      (⟨(SlotMap.insertAux c rest).1.idx + 1, (SlotMap.insertAux c rest).1.gen⟩,
       sl :: (SlotMap.insertAux c rest).2)

/-- `insert(payload) -> SlotId` (spec §4.1): always succeeds, returns a fresh
(index, generation) pair; the index may be recycled from a disposed slot, whose
generation was bumped at removal. -/
def SlotMap.insert (m : SlotMap) (c : Cell) : Key × SlotMap :=
  ((SlotMap.insertAux c m.slots).1, ⟨(SlotMap.insertAux c m.slots).2⟩)

/-- `get(id)` (spec §4.1): returns the cell only if the key's generation matches
the live generation at that index. -/
def SlotMap.get (m : SlotMap) (k : Key) : Option Cell :=
  match m.slots[k.idx]? with
  | some sl => if sl.gen = k.gen then sl.content else none
  | none => none

/-- Removal worker, walking to the key's index. -/
def SlotMap.removeAux : List Slot → Nat → Nat → Option Cell × List Slot
  | [], _, _ => (none, [])
  | sl :: rest, 0, g =>
    if sl.gen = g then
      match sl.content with
      | some c => (some c, ⟨g + 1, none⟩ :: rest)
      | none => (none, sl :: rest)
    else (none, sl :: rest)
  | sl :: rest, i + 1, g =>
    ((SlotMap.removeAux rest i g).1, sl :: (SlotMap.removeAux rest i g).2)

/-- `remove(id)` (spec §4.1): removes and returns the payload on a generation
match, bumps the generation, marks the index free; idempotent. -/
def SlotMap.remove (m : SlotMap) (k : Key) : Option Cell × SlotMap :=
  ((SlotMap.removeAux m.slots k.idx k.gen).1,
   ⟨(SlotMap.removeAux m.slots k.idx k.gen).2⟩)

/-- In-place mutation worker: interior mutability through the shared
`Rc<RefCell<..>>`, so the arena sees writes made through the cell. -/
def SlotMap.modifyAux (f : Cell → Cell) : List Slot → Nat → Nat → List Slot
  | [], _, _ => []
  | sl :: rest, 0, g =>
    if sl.gen = g then ⟨sl.gen, sl.content.map f⟩ :: rest else sl :: rest
  | sl :: rest, i + 1, g => sl :: SlotMap.modifyAux f rest i g

/-- Mutate the cell stored under `k` in place (generation checked), modelling a
write through the shared `RefCell`. -/
def SlotMap.modifyCell (m : SlotMap) (k : Key) (f : Cell → Cell) : SlotMap :=
  ⟨SlotMap.modifyAux f m.slots k.idx k.gen⟩

/-- Modelled from the spec: §3 "Runtime" (the `Runtime` type of the excluded
`runtime.rs`) — a registry owning the stored-value arena, exposing a unique
runtime identity, and keeping the scope-property list that
`push_scope_property` appends to. -/
structure Runtime where
  rid : Nat
  stored_values : SlotMap
  scopeProps : List Key
  deriving DecidableEq, Repr

/-- Modelled from the spec: §6 — the ambient (thread-local) state behind
`with_runtime` and `Runtime::current`: the registry of runtimes, which one is
currently active, and an allocation counter handing each `Rc` a fresh
address. -/
structure Sys where
  runtimes : List Runtime
  current : Option Nat
  nextPtr : Nat
  deriving DecidableEq, Repr

/-- Modelled from the spec: §6 `current_runtime` — the active runtime, if any. -/
def Sys.currentRuntime (s : Sys) : Option Runtime :=
  s.current.bind fun i => s.runtimes[i]?

/-- Replace the active runtime (used by operations that mutate the arena). -/
def Sys.setCurrentRuntime (s : Sys) (rt : Runtime) : Sys :=
  match s.current with
  | none => s
  | some i => { s with runtimes := s.runtimes.set i rt }

/-- Modelled from the spec: §6 — `Runtime::current()` as used by the `Hash`
implementation: the identity of the currently active runtime. -/
def Sys.currentRid (s : Sys) : Option Nat :=
  (s.currentRuntime).map Runtime.rid

/-- Modelled from the spec: §6 — the error of `current_runtime` lookup: no
active runtime. Distinct from any "slot disposed" outcome by construction. -/
inductive RuntimeError where
  | noRuntime
  deriving DecidableEq, Repr

/-- Modelled from the spec: §6 — `with_runtime(f)`: run `f` against the active
runtime; failure to find one propagates as the distinct `noRuntime` error. The
handle operations below inline this lookup and postcompose `.ok().flatten()`. -/
def with_runtime (s : Sys) (f : Runtime → α) : Except RuntimeError α :=
  match s.currentRuntime with
  | none => .error .noRuntime
  | some rt => .ok (f rt)

/-- The explicit machine panics of the embedded code: `expect` failures and
`RefCell` borrow violations. -/
inductive Panic where
  | expectFailed (msg : String)
  | borrowError
  | borrowMutError
  deriving DecidableEq, Repr

/-- The `StoredValue<T>` handle (nightly variant): the slot id, the `TypeId` of
`T`, and the cached `NonNull<RefCell<T>>` address recorded at creation. The
Rust type parameter exists only at compile time and is represented by `ty`. -/
structure StoredValue where
  id : Key
  ty : Ty
  inner : Nat
  deriving DecidableEq, Repr

/-- `impl PartialEq for StoredValue`: equality compares the slot id only. -/
def StoredValue.eqImpl (a b : StoredValue) : Bool :=
  a.id = b.id

/-- `impl Hash for StoredValue`: the data fed to the hasher —
`Runtime::current()` followed by `self.id`. -/
def StoredValue.hashInput (s : Sys) (a : StoredValue) : Option Nat × Key :=
  (s.currentRid, a.id)

/-- `store_value`: allocate the `Rc<RefCell<..>>` (a fresh address), insert it
into the current runtime's arena, register the scope property, and build the
handle from the new id, `TypeId::of::<T>()`, and the allocation address.
Panics (`expect`) if there is no current runtime. -/
def store_value (s : Sys) (v : Val) : Except Panic (StoredValue × Sys) :=
  let alloc := s.nextPtr
  let s' := { s with nextPtr := s.nextPtr + 1 }
  match s'.currentRuntime with
  | none => .error (.expectFailed "store_value failed to find the current runtime")
  | some rt =>
    let cell : Cell := { ptr := alloc, flag := .free, val := v }
    let (id, m) := rt.stored_values.insert cell
    let rt' := { rt with stored_values := m, scopeProps := rt.scopeProps ++ [id] }
    .ok ({ id := id, ty := v.tyId, inner := alloc }, s'.setCurrentRuntime rt')

/-- `get_inner` (nightly): look the id up in the current runtime's arena; check
that the live cell's `type_id()` equals the handle's `ty` and that the live
allocation address equals the handle's cached `inner` pointer. The type check
dereferences `value.borrow()`, which panics if a write guard is held. A
`with_runtime` error and a failed lookup or check all collapse to `none` via
`.ok().flatten()`. -/
def get_inner (s : Sys) (h : StoredValue) : Except Panic (Option Cell) :=
  match s.currentRuntime with
  | none => .ok none
  | some rt =>
    match rt.stored_values.get h.id with
    | none => .ok none
    | some cell =>
      match cell.flag with
      | .writing => .error .borrowError
      | _ =>
        if cell.ptr = h.inner ∧ cell.val.tyId = h.ty then .ok (some cell)
        else .ok none

/-- `try_with_value(f)`: `get_inner`, then `value_ref.borrow()` (panics if a
write guard is held) and apply `f` to the payload. -/
def try_with_value (s : Sys) (h : StoredValue) (f : Val → α) :
    Except Panic (Option α) :=
  match get_inner s h with
  | .error e => .error e
  | .ok none => .ok none
  | .ok (some cell) =>
    match cell.flag with
    | .writing => .error .borrowError
    | _ => .ok (some (f cell.val))

/-- `with_value(f)`: strict variant, `expect("could not get stored value")`. -/
def with_value (s : Sys) (h : StoredValue) (f : Val → α) : Except Panic α :=
  match try_with_value s h f with
  | .error e => .error e
  | .ok none => .error (.expectFailed "could not get stored value")
  | .ok (some a) => .ok a

/-- `try_get_value`: `try_with_value(T::clone)`; cloning a payload value is the
identity on the modelled universe. -/
def try_get_value (s : Sys) (h : StoredValue) : Except Panic (Option Val) :=
  try_with_value s h (fun v => v)

/-- `get_value`: strict variant, `expect("could not get stored value")`. -/
def get_value (s : Sys) (h : StoredValue) : Except Panic Val :=
  match try_get_value s h with
  | .error e => .error e
  | .ok none => .error (.expectFailed "could not get stored value")
  | .ok (some v) => .ok v

/-- Write a new payload into the cell stored under `k` in the current runtime's
arena (through the shared `RefCell`). -/
def Sys.writeCell (s : Sys) (k : Key) (v : Val) : Sys :=
  match s.currentRuntime with
  | none => s
  | some rt =>
    s.setCurrentRuntime
      { rt with stored_values := rt.stored_values.modifyCell k fun c => { c with val := v } }

/-- Set the borrow flag of the cell stored under `k` in the current runtime's
arena (a guard being taken or dropped). -/
def Sys.setFlag (s : Sys) (k : Key) (fl : BorrowFlag) : Sys :=
  match s.currentRuntime with
  | none => s
  | some rt =>
    s.setCurrentRuntime
      { rt with stored_values := rt.stored_values.modifyCell k fun c => { c with flag := fl } }

/-- `try_update_value(f)`: `get_inner`, then `value_ref.borrow_mut()` — which
panics if any guard is held — giving the caller's closure `&mut T` exclusively:
while `f` runs the cell is flagged `writing`, and the guard is dropped (flag
cleared) after the closure's result and the written payload are taken. -/
def try_update_value (s : Sys) (h : StoredValue) (f : Val → Val × α) :
    Except Panic (Option α × Sys) :=
  match get_inner s h with
  | .error e => .error e
  | .ok none => .ok (none, s)
  | .ok (some cell) =>
    match cell.flag with
    | .free =>
      let sMid := s.setFlag h.id .writing
      let (v', a) := f cell.val
      let sEnd := ((sMid.writeCell h.id v').setFlag h.id .free)
      .ok (some a, sEnd)
    | _ => .error .borrowMutError

/-- `update_value(f)`: strict variant, `expect("could not set stored value")`. -/
def update_value (s : Sys) (h : StoredValue) (f : Val → Val × α) :
    Except Panic (α × Sys) :=
  match try_update_value s h f with
  | .error e => .error e
  | .ok (none, _) => .error (.expectFailed "could not set stored value")
  | .ok (some a, s') => .ok (a, s')

/-- `try_set_value(value)`: look the id up directly (no `get_inner`, hence no
pointer-identity check), `borrow_mut` (panics if a guard is held), and
`downcast_mut::<T>` against the live payload's concrete type. Returns `none`
on success and gives the rejected input back (`some value`) when the slot is
missing or the type mismatches. A `with_runtime` error is collapsed by
`.ok().flatten()` into `none` — the success indicator — dropping the value. -/
def try_set_value (s : Sys) (h : StoredValue) (v : Val) :
    Except Panic (Option Val × Sys) :=
  match s.currentRuntime with
  | none => .ok (none, s)
  | some rt =>
    match rt.stored_values.get h.id with
    | none => .ok (some v, s)
    | some cell =>
      match cell.flag with
      | .free =>
        if cell.val.tyId = h.ty then .ok (none, s.writeCell h.id v)
        else .ok (some v, s)
      | _ => .error .borrowMutError

/-- `set_value(value)`: calls `try_set_value` and discards its result. -/
def set_value (s : Sys) (h : StoredValue) (v : Val) : Except Panic Sys :=
  match try_set_value s h v with
  | .error e => .error e
  | .ok (_, s') => .ok s'

/-- `dispose`: remove the slot from the current runtime's arena; a
`with_runtime` error is discarded (`_ = ...`), so this never panics. -/
def dispose (s : Sys) (h : StoredValue) : Sys :=
  match s.currentRuntime with
  | none => s
  | some rt =>
    s.setCurrentRuntime { rt with stored_values := (rt.stored_values.remove h.id).2 }

/-- `downcast::<U>()` (nightly): compare `TypeId::of::<U>()` against the
handle's stored tag; on a match re-type the handle over the same id, the same
cached pointer, and the same tag; on mismatch return `none`. -/
def downcast (h : StoredValue) (u : Ty) : Option StoredValue :=
  if u = h.ty then some { id := h.id, inner := h.inner, ty := h.ty }
  else none

/-- The cell a handle's lookup reaches: the active runtime's arena queried at
the handle's id. `get_inner` is a function of this lookup alone. -/
def lookupCell (s : Sys) (h : StoredValue) : Option Cell :=
  (s.currentRuntime).bind fun rt => rt.stored_values.get h.id

/-! ### Concrete scenario states, used by witnesses and counterexamples. -/

/-- A fresh runtime with an empty arena. -/
def rt0 : Runtime := ⟨0, ⟨[]⟩, []⟩

/-- A system with one fresh runtime, which is active. -/
def sys0 : Sys := ⟨[rt0], some 0, 0⟩

/-- The handle produced by `store_value sys0 (.vInt 7)`. -/
def h0 : StoredValue := ⟨⟨0, 0⟩, .tInt, 0⟩

/-- The state after `store_value sys0 (.vInt 7)`. -/
def sys1 : Sys := ⟨[⟨0, ⟨[⟨0, some ⟨0, .free, .vInt 7⟩⟩]⟩, [⟨0, 0⟩]⟩], some 0, 1⟩

/-- The state after disposing `h0` in `sys1`. -/
def sys2 : Sys := dispose sys1 h0

/-- `sys1` in the middle of an `update_value` on `h0`: the write guard is held. -/
def sys1mid : Sys := sys1.setFlag h0.id .writing

/-- A system with no active runtime at all. -/
def sysNoRt : Sys := ⟨[], none, 0⟩

/-- Two fresh runtimes A (rid 0) and B (rid 1); A is active. -/
def sysAB0 : Sys := ⟨[⟨0, ⟨[]⟩, []⟩, ⟨1, ⟨[]⟩, []⟩], some 0, 0⟩

/-- The handle produced by storing `.vInt 1` in runtime A of `sysAB0`. -/
def hA : StoredValue := ⟨⟨0, 0⟩, .tInt, 0⟩

/-- The state after `store_value sysAB0 (.vInt 1)` (slot 0 of runtime A). -/
def sysA1 : Sys :=
  ⟨[⟨0, ⟨[⟨0, some ⟨0, .free, .vInt 1⟩⟩]⟩, [⟨0, 0⟩]⟩, ⟨1, ⟨[]⟩, []⟩], some 0, 1⟩

/-- `sysA1` with runtime B made active. -/
def sysAtoB : Sys := { sysA1 with current := some 1 }

/-- The handle produced by storing `.vInt 2` in runtime B: the slot index and
generation collide numerically with `hA`, only the cached address differs. -/
def hB : StoredValue := ⟨⟨0, 0⟩, .tInt, 1⟩

/-- The state after `store_value sysAtoB (.vInt 2)` (slot 0 of runtime B). -/
def sysB1 : Sys :=
  ⟨[⟨0, ⟨[⟨0, some ⟨0, .free, .vInt 1⟩⟩]⟩, [⟨0, 0⟩]⟩,
    ⟨1, ⟨[⟨0, some ⟨1, .free, .vInt 2⟩⟩]⟩, [⟨0, 0⟩]⟩], some 1, 2⟩

/-- A one-runtime system holding two live slots: 7 at index 0 and "x" at
index 1 (the state after storing both in a fresh runtime). -/
def sys3 : Sys :=
  ⟨[⟨0, ⟨[⟨0, some ⟨0, .free, .vInt 7⟩⟩, ⟨0, some ⟨1, .free, .vStr "x"⟩⟩]⟩,
      [⟨0, 0⟩, ⟨1, 0⟩]⟩], some 0, 2⟩

/-- The handle onto slot 1 of `sys3`. -/
def h1 : StoredValue := ⟨⟨1, 0⟩, .tStr, 1⟩

/-! ### Arena lemmas -/

/-- The key returned by `insertAux` points at the inserted cell, at the slot's
current generation. -/
theorem SlotMap.insertAux_get_self (c : Cell) (l : List Slot) :
    ((SlotMap.insertAux c l).2)[(SlotMap.insertAux c l).1.idx]?
      = some ⟨(SlotMap.insertAux c l).1.gen, some c⟩ := by
  induction l with
  | nil => rfl
  | cons sl rest ih =>
    by_cases hfree : sl.content.isNone
    · simp [SlotMap.insertAux, hfree]
    · simpa [SlotMap.insertAux, hfree] using ih

/-- Insertion round trip: `get` at the fresh key returns the inserted cell. -/
theorem SlotMap.get_insert_self (m : SlotMap) (c : Cell) :
    ((m.insert c).2).get (m.insert c).1 = some c := by
  simp [SlotMap.insert, SlotMap.get, SlotMap.insertAux_get_self]

/-- Insertion never changes the generation of an existing slot. -/
theorem SlotMap.insertAux_gen_preserved (c : Cell) (l : List Slot) (j : Nat)
    (sl : Slot) (h : l[j]? = some sl) :
    ∃ sl', ((SlotMap.insertAux c l).2)[j]? = some sl' ∧ sl'.gen = sl.gen := by
  induction l generalizing j with
  | nil => simp at h
  | cons hd rest ih =>
    by_cases hfree : hd.content.isNone
    · cases j with
      | zero =>
        refine ⟨⟨hd.gen, some c⟩, by simp [SlotMap.insertAux, hfree], ?_⟩
        simp only [List.getElem?_cons_zero] at h
        cases h
        rfl
      | succ j =>
        exact ⟨sl, by simpa [SlotMap.insertAux, hfree] using h, rfl⟩
    · cases j with
      | zero =>
        exact ⟨sl, by simpa [SlotMap.insertAux, hfree] using h, rfl⟩
      | succ j =>
        obtain ⟨sl', h1, h2⟩ := ih j (by simpa using h)
        exact ⟨sl', by simpa [SlotMap.insertAux, hfree] using h1, h2⟩

/-- Removal leaves every other slot index untouched. -/
theorem SlotMap.removeAux_get_other (l : List Slot) (i g j : Nat) (hne : j ≠ i) :
    ((SlotMap.removeAux l i g).2)[j]? = l[j]? := by
  induction l generalizing i j with
  | nil => simp [SlotMap.removeAux]
  | cons hd rest ih =>
    cases i with
    | zero =>
      cases j with
      | zero => exact absurd rfl hne
      | succ j =>
        by_cases hgen : hd.gen = g
        · cases hct : hd.content <;> simp [SlotMap.removeAux, hgen, hct]
        · simp [SlotMap.removeAux, hgen]
    | succ i =>
      cases j with
      | zero => simp [SlotMap.removeAux]
      | succ j =>
        have := ih i j (by omega)
        simpa [SlotMap.removeAux] using this

/-- What removal does to its own index: either the slot matched at the given
generation with an occupant, and its generation is bumped with the occupant
cleared, or nothing at that index matched and it is unchanged. -/
theorem SlotMap.removeAux_get_self (l : List Slot) (i g : Nat) :
    (∃ c, l[i]? = some ⟨g, some c⟩ ∧
      ((SlotMap.removeAux l i g).2)[i]? = some ⟨g + 1, none⟩) ∨
    ((∀ c, l[i]? ≠ some ⟨g, some c⟩) ∧
      ((SlotMap.removeAux l i g).2)[i]? = l[i]?) := by
  induction l generalizing i with
  | nil => right; simp [SlotMap.removeAux]
  | cons hd rest ih =>
    cases i with
    | zero =>
      by_cases hgen : hd.gen = g
      · cases hct : hd.content with
        | some c =>
          left
          refine ⟨c, ?_, by simp [SlotMap.removeAux, hgen, hct]⟩
          simp only [List.getElem?_cons_zero]
          rw [← hgen, ← hct]
        | none =>
          right
          refine ⟨?_, by simp [SlotMap.removeAux, hgen, hct]⟩
          intro c hc
          simp only [List.getElem?_cons_zero] at hc
          cases hc
          simp at hct
      · right
        refine ⟨?_, by simp [SlotMap.removeAux, hgen]⟩
        intro c hc
        simp only [List.getElem?_cons_zero] at hc
        cases hc
        simp at hgen
    | succ i =>
      rcases ih i with ⟨c, h1, h2⟩ | ⟨h1, h2⟩
      · exact .inl ⟨c, by simpa using h1, by simpa [SlotMap.removeAux] using h2⟩
      · refine .inr ⟨?_, by simpa [SlotMap.removeAux] using h2⟩
        intro c hc
        exact h1 c (by simpa using hc)

/-- Removal never lowers the generation of any slot. -/
theorem SlotMap.removeAux_gen_ge (l : List Slot) (i g j : Nat) (sl : Slot)
    (h : l[j]? = some sl) :
    ∃ sl', ((SlotMap.removeAux l i g).2)[j]? = some sl' ∧ sl.gen ≤ sl'.gen := by
  by_cases hne : j = i
  · subst hne
    rcases SlotMap.removeAux_get_self l j g with ⟨c, h1, h2⟩ | ⟨_, h2⟩
    · refine ⟨⟨g + 1, none⟩, h2, ?_⟩
      rw [h] at h1
      cases h1
      exact Nat.le_succ g
    · exact ⟨sl, h2.trans h, le_refl _⟩
  · exact ⟨sl, (SlotMap.removeAux_get_other l i g j hne).trans h, le_refl _⟩

/-- A removed key never answers `get` again on the resulting map. -/
theorem SlotMap.get_remove_self (m : SlotMap) (k : Key) :
    ((m.remove k).2).get k = none := by
  rcases SlotMap.removeAux_get_self m.slots k.idx k.gen with ⟨c, _, h2⟩ | ⟨h1, h2⟩
  · simp [SlotMap.remove, SlotMap.get, h2]
  · simp only [SlotMap.remove, SlotMap.get, h2]
    cases hget : m.slots[k.idx]? with
    | none => rfl
    | some sl =>
      by_cases hgen : sl.gen = k.gen
      · cases hct : sl.content with
        | none => simp [hgen, hct]
        | some c =>
          exfalso
          refine h1 c ?_
          rw [hget, ← hgen, ← hct]
      · simp [hgen]

/-- Removing one key does not change `get` at any other key. -/
theorem SlotMap.get_remove_other (m : SlotMap) (k k' : Key) (hne : k' ≠ k) :
    ((m.remove k).2).get k' = m.get k' := by
  by_cases hidx : k'.idx = k.idx
  · have hgen : k'.gen ≠ k.gen := by
      intro hg
      exact hne (by cases k'; cases k; simp_all)
    rcases SlotMap.removeAux_get_self m.slots k.idx k.gen with ⟨c, h1, h2⟩ | ⟨_, h2⟩
    · simp only [SlotMap.remove, SlotMap.get, hidx, h1, h2]
      have hg2 : ¬ (k.gen = k'.gen) := fun hg => hgen hg.symm
      simp [hg2]
    · simp [SlotMap.remove, SlotMap.get, hidx, h2]
  · simp [SlotMap.remove, SlotMap.get,
      SlotMap.removeAux_get_other m.slots k.idx k.gen k'.idx hidx]

/-- In-place cell mutation leaves every other slot index untouched. -/
theorem SlotMap.modifyAux_get_other (f : Cell → Cell) (l : List Slot)
    (i g j : Nat) (hne : j ≠ i) :
    (SlotMap.modifyAux f l i g)[j]? = l[j]? := by
  induction l generalizing i j with
  | nil => simp [SlotMap.modifyAux]
  | cons hd rest ih =>
    cases i with
    | zero =>
      cases j with
      | zero => exact absurd rfl hne
      | succ j => by_cases hgen : hd.gen = g <;> simp [SlotMap.modifyAux, hgen]
    | succ i =>
      cases j with
      | zero => simp [SlotMap.modifyAux]
      | succ j =>
        have := ih i j (by omega)
        simpa [SlotMap.modifyAux] using this

/-- What in-place mutation does to its own index: on a generation match the
occupant is mapped and the generation kept; otherwise the slot is unchanged. -/
theorem SlotMap.modifyAux_get_self (f : Cell → Cell) (l : List Slot) (i g : Nat) :
    (∃ ct, l[i]? = some ⟨g, ct⟩ ∧
      (SlotMap.modifyAux f l i g)[i]? = some ⟨g, ct.map f⟩) ∨
    ((∀ ct, l[i]? ≠ some ⟨g, ct⟩) ∧
      (SlotMap.modifyAux f l i g)[i]? = l[i]?) := by
  induction l generalizing i with
  | nil => right; simp [SlotMap.modifyAux]
  | cons hd rest ih =>
    cases i with
    | zero =>
      by_cases hgen : hd.gen = g
      · left
        refine ⟨hd.content, ?_, by simp [SlotMap.modifyAux, hgen]⟩
        simp only [List.getElem?_cons_zero]
        rw [← hgen]
      · right
        refine ⟨?_, by simp [SlotMap.modifyAux, hgen]⟩
        intro ct hc
        simp only [List.getElem?_cons_zero] at hc
        cases hc
        simp at hgen
    | succ i =>
      rcases ih i with ⟨ct, h1, h2⟩ | ⟨h1, h2⟩
      · exact .inl ⟨ct, by simpa using h1, by simpa [SlotMap.modifyAux] using h2⟩
      · refine .inr ⟨?_, by simpa [SlotMap.modifyAux] using h2⟩
        intro ct hc
        exact h1 ct (by simpa using hc)

/-- In-place mutation never changes the generation of any slot. -/
theorem SlotMap.modifyAux_gen_preserved (f : Cell → Cell) (l : List Slot)
    (i g j : Nat) (sl : Slot) (h : l[j]? = some sl) :
    ∃ sl', (SlotMap.modifyAux f l i g)[j]? = some sl' ∧ sl'.gen = sl.gen := by
  by_cases hne : j = i
  · subst hne
    rcases SlotMap.modifyAux_get_self f l j g with ⟨ct, h1, h2⟩ | ⟨_, h2⟩
    · refine ⟨⟨g, ct.map f⟩, h2, ?_⟩
      rw [h] at h1
      cases h1
      rfl
    · exact ⟨sl, h2.trans h, rfl⟩
  · exact ⟨sl, (SlotMap.modifyAux_get_other f l i g j hne).trans h, rfl⟩

/-- `get` after in-place mutation at the same key: the mutation is applied to
whatever was there. -/
theorem SlotMap.get_modify_self (m : SlotMap) (k : Key) (f : Cell → Cell) :
    (m.modifyCell k f).get k = (m.get k).map f := by
  rcases SlotMap.modifyAux_get_self f m.slots k.idx k.gen with ⟨ct, h1, h2⟩ | ⟨h1, h2⟩
  · simp [SlotMap.modifyCell, SlotMap.get, h1, h2]
  · simp only [SlotMap.modifyCell, SlotMap.get, h2]
    cases hget : m.slots[k.idx]? with
    | none => rfl
    | some sl =>
      by_cases hgen : sl.gen = k.gen
      · exfalso
        refine h1 sl.content ?_
        rw [hget, ← hgen]
      · simp [hgen]

/-- In-place mutation at one key does not change `get` at any other key. -/
theorem SlotMap.get_modify_other (m : SlotMap) (k k' : Key) (f : Cell → Cell)
    (hne : k' ≠ k) :
    (m.modifyCell k f).get k' = m.get k' := by
  by_cases hidx : k'.idx = k.idx
  · have hgen : k'.gen ≠ k.gen := by
      intro hg
      exact hne (by cases k'; cases k; simp_all)
    rcases SlotMap.modifyAux_get_self f m.slots k.idx k.gen with ⟨ct, h1, h2⟩ | ⟨_, h2⟩
    · simp only [SlotMap.modifyCell, SlotMap.get, hidx, h1, h2]
      have hg2 : ¬ (k.gen = k'.gen) := fun hg => hgen hg.symm
      simp [hg2]
    · simp [SlotMap.modifyCell, SlotMap.get, hidx, h2]
  · simp [SlotMap.modifyCell, SlotMap.get,
      SlotMap.modifyAux_get_other f m.slots k.idx k.gen k'.idx hidx]

/-! ### The staleness invariant: a disposed key can never again answer. -/

/-- A key is stale in a map when the slot at its index has outrun the key's
generation. Spec §3: this is what makes an old handle "provably stale". -/
def SlotMap.Stale (m : SlotMap) (k : Key) : Prop :=
  ∃ sl, m.slots[k.idx]? = some sl ∧ k.gen < sl.gen

/-- A stale key misses: `get` returns nothing. -/
theorem SlotMap.Stale.get_none {m : SlotMap} {k : Key} (h : m.Stale k) :
    m.get k = none := by
  obtain ⟨sl, h1, h2⟩ := h
  have : ¬ (sl.gen = k.gen) := by omega
  simp [SlotMap.get, h1, this]

/-- Removing a present key makes it stale. -/
theorem SlotMap.stale_of_remove_present (m : SlotMap) (k : Key) (c : Cell)
    (h : m.get k = some c) :
    ((m.remove k).2).Stale k := by
  rcases SlotMap.removeAux_get_self m.slots k.idx k.gen with ⟨c₂, h1, h2⟩ | ⟨h1, h2⟩
  · exact ⟨⟨k.gen + 1, none⟩, h2, Nat.lt_succ_self _⟩
  · exfalso
    cases hget : m.slots[k.idx]? with
    | none => simp [SlotMap.get, hget] at h
    | some sl =>
      by_cases hgen : sl.gen = k.gen
      · have hc : sl.content = some c := by simpa [SlotMap.get, hget, hgen] using h
        have hsl : sl = ⟨k.gen, some c⟩ := by cases sl; simp_all
        exact h1 c (by rw [hget, hsl])
      · simp [SlotMap.get, hget, hgen] at h

/-- Staleness survives any later insertion (index reuse keeps the bumped
generation; appended slots live at other indices). -/
theorem SlotMap.Stale.insert {m : SlotMap} {k : Key} (h : m.Stale k) (c : Cell) :
    ((m.insert c).2).Stale k := by
  obtain ⟨sl, h1, h2⟩ := h
  obtain ⟨sl', h3, h4⟩ := SlotMap.insertAux_gen_preserved c m.slots k.idx sl h1
  exact ⟨sl', h3, by omega⟩

/-- Staleness survives any later removal (generations only grow). -/
theorem SlotMap.Stale.remove {m : SlotMap} {k : Key} (h : m.Stale k) (k' : Key) :
    ((m.remove k').2).Stale k := by
  obtain ⟨sl, h1, h2⟩ := h
  obtain ⟨sl', h3, h4⟩ := SlotMap.removeAux_gen_ge m.slots k'.idx k'.gen k.idx sl h1
  exact ⟨sl', h3, by omega⟩

/-- Staleness survives any in-place mutation (generations unchanged). -/
theorem SlotMap.Stale.modify {m : SlotMap} {k : Key} (h : m.Stale k) (k' : Key)
    (f : Cell → Cell) :
    ((m.modifyCell k' f)).Stale k := by
  obtain ⟨sl, h1, h2⟩ := h
  obtain ⟨sl', h3, h4⟩ :=
    SlotMap.modifyAux_gen_preserved f m.slots k'.idx k'.gen k.idx sl h1
  exact ⟨sl', h3, by omega⟩


/-! ### System-level lemmas -/

/-- Switching the active runtime's contents does not move the `current` index. -/
theorem Sys.current_setCurrentRuntime (s : Sys) (rt : Runtime) :
    (s.setCurrentRuntime rt).current = s.current := by
  cases s with
  | mk rts cur np => cases cur <;> simp [Sys.setCurrentRuntime]

/-- After replacing the active runtime, the active runtime is the replacement. -/
theorem Sys.currentRuntime_setCurrentRuntime (s : Sys) (rt0 rt : Runtime)
    (h : s.currentRuntime = some rt0) :
    (s.setCurrentRuntime rt).currentRuntime = some rt := by
  cases hc : s.current with
  | none => simp [Sys.currentRuntime, hc] at h
  | some i =>
    have hg : s.runtimes[i]? = some rt0 := by simpa [Sys.currentRuntime, hc] using h
    have hlt : i < s.runtimes.length := (List.getElem?_eq_some.mp hg).1
    simp [Sys.setCurrentRuntime, Sys.currentRuntime, hc, List.getElem?_set_self hlt]

/-- `writeCell` only rewrites the payload stored under the written key. -/
theorem Sys.currentRuntime_writeCell (s : Sys) (rt : Runtime) (k : Key) (v : Val)
    (h : s.currentRuntime = some rt) :
    (s.writeCell k v).currentRuntime =
      some { rt with
        stored_values := rt.stored_values.modifyCell k fun c => { c with val := v } } := by
  rw [Sys.writeCell, h]
  exact Sys.currentRuntime_setCurrentRuntime s rt _ h

/-- `setFlag` only rewrites the borrow flag stored under the written key. -/
theorem Sys.currentRuntime_setFlag (s : Sys) (rt : Runtime) (k : Key)
    (fl : BorrowFlag) (h : s.currentRuntime = some rt) :
    (s.setFlag k fl).currentRuntime =
      some { rt with
        stored_values := rt.stored_values.modifyCell k fun c => { c with flag := fl } } := by
  rw [Sys.setFlag, h]
  exact Sys.currentRuntime_setCurrentRuntime s rt _ h

/-- The active runtime after `dispose` is the active runtime with the handle's
slot removed. -/
theorem Sys.currentRuntime_dispose (s : Sys) (rt : Runtime) (h : StoredValue)
    (hrt : s.currentRuntime = some rt) :
    (dispose s h).currentRuntime =
      some { rt with stored_values := (rt.stored_values.remove h.id).2 } := by
  rw [dispose, hrt]
  exact Sys.currentRuntime_setCurrentRuntime s rt _ hrt

/-- Bumping the allocation counter does not change the active runtime. -/
theorem Sys.currentRuntime_set_nextPtr (s : Sys) (n : Nat) :
    ({ s with nextPtr := n } : Sys).currentRuntime = s.currentRuntime := rfl

/-! ### `get_inner` case lemmas -/

/-- With no active runtime, `get_inner` collapses the distinct `with_runtime`
error to `none`. -/
theorem get_inner_none_of_noRuntime (s : Sys) (h : StoredValue)
    (hrt : s.currentRuntime = none) : get_inner s h = .ok none := by
  simp [get_inner, hrt]

/-- With the slot missing from the active runtime, `get_inner` returns `none`. -/
theorem get_inner_none_of_missing (s : Sys) (h : StoredValue) (rt : Runtime)
    (hrt : s.currentRuntime = some rt)
    (hget : rt.stored_values.get h.id = none) : get_inner s h = .ok none := by
  simp [get_inner, hrt, hget]

/-- With a live cell whose pointer identity or runtime type fails the handle's
checks, `get_inner` returns `none`. -/
theorem get_inner_none_of_mismatch (s : Sys) (h : StoredValue) (rt : Runtime)
    (cell : Cell) (hrt : s.currentRuntime = some rt)
    (hget : rt.stored_values.get h.id = some cell)
    (hflag : cell.flag ≠ .writing)
    (hmm : ¬(cell.ptr = h.inner ∧ cell.val.tyId = h.ty)) :
    get_inner s h = .ok none := by
  cases cflag : cell.flag with
  | writing => exact absurd cflag hflag
  | free => simp [get_inner, hrt, hget, cflag, hmm]
  | reading n => simp [get_inner, hrt, hget, cflag, hmm]

/-- With a live cell passing both checks, `get_inner` returns the cell. -/
theorem get_inner_some (s : Sys) (h : StoredValue) (rt : Runtime) (cell : Cell)
    (hrt : s.currentRuntime = some rt)
    (hget : rt.stored_values.get h.id = some cell)
    (hflag : cell.flag ≠ .writing)
    (hptr : cell.ptr = h.inner) (hty : cell.val.tyId = h.ty) :
    get_inner s h = .ok (some cell) := by
  cases cflag : cell.flag with
  | writing => exact absurd cflag hflag
  | free => simp [get_inner, hrt, hget, cflag, hptr, hty]
  | reading n => simp [get_inner, hrt, hget, cflag, hptr, hty]

/-- With a write guard held on the live cell, `get_inner` panics at its
`value.borrow()` type check. -/
theorem get_inner_panic_of_writing (s : Sys) (h : StoredValue) (rt : Runtime)
    (cell : Cell) (hrt : s.currentRuntime = some rt)
    (hget : rt.stored_values.get h.id = some cell)
    (hflag : cell.flag = .writing) :
    get_inner s h = .error .borrowError := by
  simp [get_inner, hrt, hget, hflag]

/-- A cell that `get_inner` hands out is never under a write guard (the borrow
inside `get_inner` would have panicked). -/
theorem get_inner_some_not_writing (s : Sys) (h : StoredValue) (cell : Cell)
    (hinner : get_inner s h = .ok (some cell)) : cell.flag ≠ .writing := by
  cases hrt : s.currentRuntime with
  | none => rw [get_inner_none_of_noRuntime s h hrt] at hinner; simp at hinner
  | some rt =>
    cases hget : rt.stored_values.get h.id with
    | none => rw [get_inner_none_of_missing s h rt hrt hget] at hinner; simp at hinner
    | some cell₂ =>
      cases cflag : cell₂.flag with
      | writing =>
        rw [get_inner_panic_of_writing s h rt cell₂ hrt hget cflag] at hinner
        simp at hinner
      | free =>
        have : cell₂ = cell := by
          by_cases hmm : cell₂.ptr = h.inner ∧ cell₂.val.tyId = h.ty
          · have := get_inner_some s h rt cell₂ hrt hget (by simp [cflag]) hmm.1 hmm.2
            rw [this] at hinner
            simpa using hinner
          · rw [get_inner_none_of_mismatch s h rt cell₂ hrt hget (by simp [cflag]) hmm]
              at hinner
            simp at hinner
        rw [← this, cflag]
        simp
      | reading n =>
        have : cell₂ = cell := by
          by_cases hmm : cell₂.ptr = h.inner ∧ cell₂.val.tyId = h.ty
          · have := get_inner_some s h rt cell₂ hrt hget (by simp [cflag]) hmm.1 hmm.2
            rw [this] at hinner
            simpa using hinner
          · rw [get_inner_none_of_mismatch s h rt cell₂ hrt hget (by simp [cflag]) hmm]
              at hinner
            simp at hinner
        rw [← this, cflag]
        simp

/-- `try_with_value` applies the reader when `get_inner` hands out the cell. -/
theorem try_with_value_of_some {α : Type} (s : Sys) (h : StoredValue)
    (cell : Cell) (f : Val → α)
    (hinner : get_inner s h = .ok (some cell)) :
    try_with_value s h f = .ok (some (f cell.val)) := by
  have hflag := get_inner_some_not_writing s h cell hinner
  cases cflag : cell.flag with
  | writing => exact absurd cflag hflag
  | free => simp [try_with_value, hinner, cflag]
  | reading n => simp [try_with_value, hinner, cflag]

/-- `try_with_value` is empty exactly when `get_inner` is. -/
theorem try_with_value_of_none {α : Type} (s : Sys) (h : StoredValue)
    (f : Val → α) (hinner : get_inner s h = .ok none) :
    try_with_value s h f = .ok none := by
  simp [try_with_value, hinner]

/-- `try_with_value` propagates a `get_inner` panic. -/
theorem try_with_value_of_panic {α : Type} (s : Sys) (h : StoredValue)
    (f : Val → α) (e : Panic) (hinner : get_inner s h = .error e) :
    try_with_value s h f = .error e := by
  simp [try_with_value, hinner]

/-! ### C1 — store/get round trip -/

/-- C1: Round trip — for every storable value `v`, `store_value v` followed,
while the slot is still live in the same runtime, by `try_get_value`, by the
strict `get_value`, or by `with_value` with the identity reader on the returned
handle, yields a value equal to `v`. -/
theorem C1_store_roundtrip (s : Sys) (v : Val) (h : StoredValue) (s₂ : Sys)
    (hstore : store_value s v = .ok (h, s₂)) :
    try_get_value s₂ h = .ok (some v) ∧ get_value s₂ h = .ok v ∧
      with_value s₂ h (fun x => x) = .ok v := by
  simp only [store_value, Sys.currentRuntime_set_nextPtr] at hstore
  cases hrt : s.currentRuntime with
  | none => rw [hrt] at hstore; simp at hstore
  | some rt =>
    rw [hrt] at hstore
    simp only [Except.ok.injEq, Prod.mk.injEq] at hstore
    obtain ⟨hh, hs⟩ := hstore
    subst hh hs
    have hrt2 :
        ((({ s with nextPtr := s.nextPtr + 1 } : Sys)).setCurrentRuntime
            { rt with
              stored_values := (rt.stored_values.insert ⟨s.nextPtr, .free, v⟩).2,
              scopeProps :=
                rt.scopeProps ++ [(rt.stored_values.insert ⟨s.nextPtr, .free, v⟩).1] }).currentRuntime
          = some
            { rt with
              stored_values := (rt.stored_values.insert ⟨s.nextPtr, .free, v⟩).2,
              scopeProps :=
                rt.scopeProps ++ [(rt.stored_values.insert ⟨s.nextPtr, .free, v⟩).1] } :=
      Sys.currentRuntime_setCurrentRuntime _ rt _
        (by rw [Sys.currentRuntime_set_nextPtr]; exact hrt)
    have hget := SlotMap.get_insert_self rt.stored_values (⟨s.nextPtr, .free, v⟩ : Cell)
    have hinner := get_inner_some _
      (⟨(rt.stored_values.insert ⟨s.nextPtr, .free, v⟩).1, v.tyId, s.nextPtr⟩ : StoredValue)
      _ (⟨s.nextPtr, .free, v⟩ : Cell) hrt2 hget (by simp) rfl rfl
    refine ⟨?_, ?_, ?_⟩
    · exact try_with_value_of_some _ _ _ _ hinner
    · rw [get_value, try_get_value, try_with_value_of_some _ _ _ _ hinner]
    · rw [with_value, try_with_value_of_some _ _ _ _ hinner]

/-- C1 witness: in a concrete one-runtime system, storing `7` and reading it
back through every reader yields `7`. -/
theorem C1_store_roundtrip_witness :
    try_get_value sys1 h0 = .ok (some (.vInt 7)) ∧
      get_value sys1 h0 = .ok (.vInt 7) ∧
      with_value sys1 h0 (fun x => x) = .ok (.vInt 7) :=
  C1_store_roundtrip sys0 (.vInt 7) h0 sys1 (by rfl)

/-! ### `try_update_value` / `try_set_value` and strict-variant case lemmas -/

/-- `try_update_value` is empty (and leaves the state alone) when `get_inner`
is empty. -/
theorem try_update_value_of_none {α : Type} (s : Sys) (h : StoredValue)
    (f : Val → Val × α) (hinner : get_inner s h = .ok none) :
    try_update_value s h f = .ok (none, s) := by
  simp [try_update_value, hinner]

/-- `try_update_value` propagates a `get_inner` panic. -/
theorem try_update_value_of_panic {α : Type} (s : Sys) (h : StoredValue)
    (f : Val → Val × α) (e : Panic) (hinner : get_inner s h = .error e) :
    try_update_value s h f = .error e := by
  simp [try_update_value, hinner]

/-- With no active runtime, `try_set_value` collapses the `with_runtime` error
into `none` — the success indicator — and drops the value. -/
theorem try_set_value_of_noRuntime (s : Sys) (h : StoredValue) (v : Val)
    (hrt : s.currentRuntime = none) :
    try_set_value s h v = .ok (none, s) := by
  simp [try_set_value, hrt]

/-- With the slot missing, `try_set_value` hands the rejected value back. -/
theorem try_set_value_of_missing (s : Sys) (h : StoredValue) (v : Val)
    (rt : Runtime) (hrt : s.currentRuntime = some rt)
    (hget : rt.stored_values.get h.id = none) :
    try_set_value s h v = .ok (some v, s) := by
  simp [try_set_value, hrt, hget]

/-- With a live, unborrowed cell of the handle's type, `try_set_value` writes
the new payload and reports success. -/
theorem try_set_value_of_present (s : Sys) (h : StoredValue) (v : Val)
    (rt : Runtime) (cell : Cell) (hrt : s.currentRuntime = some rt)
    (hget : rt.stored_values.get h.id = some cell)
    (hflag : cell.flag = .free) (hty : cell.val.tyId = h.ty) :
    try_set_value s h v = .ok (none, s.writeCell h.id v) := by
  simp [try_set_value, hrt, hget, hflag, hty]

/-- The strict `with_value` panics when the fallible variant is empty. -/
theorem with_value_of_none {α : Type} (s : Sys) (h : StoredValue) (f : Val → α)
    (htry : try_with_value s h f = .ok none) :
    with_value s h f = .error (.expectFailed "could not get stored value") := by
  simp [with_value, htry]

/-- The strict `get_value` panics when the fallible variant is empty. -/
theorem get_value_of_none (s : Sys) (h : StoredValue)
    (htry : try_get_value s h = .ok none) :
    get_value s h = .error (.expectFailed "could not get stored value") := by
  simp [get_value, htry]

/-- The strict `update_value` panics when the fallible variant is empty. -/
theorem update_value_of_none {α : Type} (s : Sys) (h : StoredValue)
    (f : Val → Val × α) (htry : try_update_value s h f = .ok (none, s)) :
    update_value s h f = .error (.expectFailed "could not set stored value") := by
  simp [update_value, htry]

/-! ### C2 — disposal finality -/

/-- C2 (amended): after `dispose()` the handle's slot is gone from the arena.
With the slot gone, `try_with_value`, `try_get_value` and `try_update_value`
return the empty result, but `try_set_value` hands the rejected input value
back (`some v`, not the empty result); the strict `with_value`, `get_value`
and `update_value` panic. The disposed slot id is stale forever: a stale key
misses every lookup, and staleness is preserved by every later insertion,
removal and in-place write, so the disposed id never again answers as present
even if its index is reused by a new insertion (generation mismatch). -/
theorem C2_dispose_finality (s : Sys) (h : StoredValue) (rt : Runtime)
    (hrt : s.currentRuntime = some rt) :
    ((dispose s h).currentRuntime =
        some { rt with stored_values := (rt.stored_values.remove h.id).2 } ∧
      (rt.stored_values.remove h.id).2.get h.id = none) ∧
    (∀ (s' : Sys) (rt' : Runtime), s'.currentRuntime = some rt' →
      rt'.stored_values.get h.id = none →
      (∀ (α : Type) (f : Val → α), try_with_value s' h f = .ok none) ∧
      try_get_value s' h = .ok none ∧
      (∀ (α : Type) (f : Val → Val × α), try_update_value s' h f = .ok (none, s')) ∧
      (∀ v, try_set_value s' h v = .ok (some v, s')) ∧
      (∀ (α : Type) (f : Val → α),
        with_value s' h f = .error (.expectFailed "could not get stored value")) ∧
      get_value s' h = .error (.expectFailed "could not get stored value") ∧
      (∀ (α : Type) (f : Val → Val × α),
        update_value s' h f = .error (.expectFailed "could not set stored value"))) ∧
    (∀ c, rt.stored_values.get h.id = some c →
      ((rt.stored_values.remove h.id).2).Stale h.id) ∧
    (∀ (m : SlotMap) (k : Key), m.Stale k →
      m.get k = none ∧
      (∀ c, ((m.insert c).2).Stale k) ∧
      (∀ k', ((m.remove k').2).Stale k) ∧
      (∀ k' f, (m.modifyCell k' f).Stale k)) := by
  refine ⟨⟨Sys.currentRuntime_dispose s rt h hrt, SlotMap.get_remove_self _ _⟩,
    ?_, ?_, ?_⟩
  · intro s' rt' hrt' hgone
    have hinner := get_inner_none_of_missing s' h rt' hrt' hgone
    have htw : ∀ (α : Type) (f : Val → α), try_with_value s' h f = .ok none :=
      fun α f => try_with_value_of_none s' h f hinner
    have htu : ∀ (α : Type) (f : Val → Val × α),
        try_update_value s' h f = .ok (none, s') :=
      fun α f => try_update_value_of_none s' h f hinner
    refine ⟨htw, htw _ _, htu,
      fun v => try_set_value_of_missing s' h v rt' hrt' hgone,
      fun α f => with_value_of_none s' h f (htw _ _), ?_, ?_⟩
    · exact get_value_of_none s' h (htw _ _)
    · exact fun α f => update_value_of_none s' h f (htu _ _)
  · exact fun c hc => SlotMap.stale_of_remove_present rt.stored_values h.id c hc
  · intro m k hst
    exact ⟨hst.get_none, fun c => hst.insert c, fun k' => hst.remove k',
      fun k' f => hst.modify k' f⟩

/-- C2 counterexample: after disposing the handle, the fallible
`try_set_value` does not return the empty result as the claim states — it
hands the rejected value back. -/
theorem C2_dispose_cex :
    dispose sys1 h0 = sys2 ∧
    try_set_value sys2 h0 (.vInt 5) = .ok (some (.vInt 5), sys2) ∧
    (Except.ok (some (Val.vInt 5), sys2) : Except Panic (Option Val × Sys))
      ≠ .ok (none, sys2) := by
  refine ⟨rfl, by rfl, by simp⟩

/-- C2 witness: the disposed-slot consequences at a concrete disposed state. -/
theorem C2_dispose_finality_witness :
    try_get_value sys2 h0 = .ok none ∧
      get_value sys2 h0 = .error (.expectFailed "could not get stored value") := by
  have H := C2_dispose_finality sys1 h0 ⟨0, ⟨[⟨0, some ⟨0, .free, .vInt 7⟩⟩]⟩, [⟨0, 0⟩]⟩ rfl
  have H2 := H.2.1 sys2 ⟨0, ⟨[⟨1, none⟩]⟩, [⟨0, 0⟩]⟩ rfl rfl
  exact ⟨H2.2.1, H2.2.2.2.2.2.1⟩

/-! ### C3 — handle identity and cross-runtime isolation -/

/-- C3 (amended): handle equality is by slot id only, so two handles from
different runtimes with numerically colliding slot ids compare equal; the hash
input is (current runtime identity, slot id). Isolation does hold for the
`get_inner`-based accesses: a handle whose cached allocation address differs
from the live cell's — as for a foreign runtime's handle, every live
allocation having a distinct address — cannot read, clone out of, or update
the cell. (The pointer-unchecked `try_set_value` can still write across
runtimes when the id and the payload type collide, as the counterexample
shows.) -/
theorem C3_handle_identity_isolation (a b : StoredValue) (s : Sys)
    (rt : Runtime) (cell : Cell)
    (hrt : s.currentRuntime = some rt)
    (hget : rt.stored_values.get a.id = some cell)
    (hflag : cell.flag ≠ .writing)
    (hptr : cell.ptr ≠ a.inner) :
    (StoredValue.eqImpl a b = true ↔ a.id = b.id) ∧
    StoredValue.hashInput s a = (s.currentRid, a.id) ∧
    (∀ (α : Type) (f : Val → α), try_with_value s a f = .ok none) ∧
    try_get_value s a = .ok none ∧
    (∀ (α : Type) (f : Val → Val × α), try_update_value s a f = .ok (none, s)) := by
  have hinner := get_inner_none_of_mismatch s a rt cell hrt hget hflag
    (fun hc => hptr hc.1)
  refine ⟨by simp [StoredValue.eqImpl], rfl,
    fun α f => try_with_value_of_none s a f hinner,
    try_with_value_of_none s a _ hinner,
    fun α f => try_update_value_of_none s a f hinner⟩

/-- C3 counterexample: handles `hA` (runtime A) and `hB` (runtime B) have
colliding slot ids; the code's `PartialEq` makes them equal — refuting "never
equal" — and `try_set_value` writes runtime B's cell through runtime A's
handle, after which runtime B's own handle reads the foreign write. -/
theorem C3_cross_runtime_cex :
    store_value sysAB0 (.vInt 1) = .ok (hA, sysA1) ∧
    store_value sysAtoB (.vInt 2) = .ok (hB, sysB1) ∧
    StoredValue.eqImpl hA hB = true ∧
    hA.inner ≠ hB.inner ∧
    try_set_value sysB1 hA (.vInt 99) =
      .ok (none, sysB1.writeCell hA.id (.vInt 99)) ∧
    try_with_value (sysB1.writeCell hA.id (.vInt 99)) hB (fun x => x)
      = .ok (some (.vInt 99)) := by
  exact ⟨rfl, rfl, rfl, by decide, rfl, rfl⟩

/-- C3 witness: applied to the colliding handles, the equality is by id and
runtime A's handle cannot read runtime B's cell. -/
theorem C3_handle_identity_isolation_witness :
    StoredValue.eqImpl hA hB = true ∧ try_get_value sysB1 hA = .ok none := by
  have H := C3_handle_identity_isolation hA hB sysB1
    ⟨1, ⟨[⟨0, some ⟨1, .free, .vInt 2⟩⟩]⟩, [⟨0, 0⟩]⟩ ⟨1, .free, .vInt 2⟩
    rfl rfl (by decide) (by decide)
  exact ⟨H.1.mpr rfl, H.2.2.2.1⟩

/-! ### C4 — downcast rejection -/

/-- C4: downcast rejection — for a handle whose type tag agrees with its live
payload's concrete type (as every handle produced by `store_value` or a
successful `downcast` does), downcasting to any tag other than that concrete
type returns `none`; the operation is total (no panic on the fallible path)
and produces no handle onto a misinterpreted payload. -/
theorem C4_downcast_mismatch (s : Sys) (h : StoredValue) (rt : Runtime)
    (cell : Cell) (u : Ty)
    (hrt : s.currentRuntime = some rt)
    (hget : rt.stored_values.get h.id = some cell)
    (hty : cell.val.tyId = h.ty)
    (hu : u ≠ cell.val.tyId) :
    downcast h u = none := by
  have hne : u ≠ h.ty := fun he => hu (he.trans hty.symm)
  simp [downcast, hne]

/-- C4 witness: downcasting the live integer slot to the string tag is
rejected. -/
theorem C4_downcast_mismatch_witness : downcast h0 .tStr = none :=
  C4_downcast_mismatch sys1 h0
    ⟨0, ⟨[⟨0, some ⟨0, .free, .vInt 7⟩⟩]⟩, [⟨0, 0⟩]⟩ ⟨0, .free, .vInt 7⟩ .tStr
    rfl rfl rfl (by decide)

/-! ### C5 — downcast success aliases the same cell -/

/-- C5: a successful downcast yields a handle with the same slot id (indeed
the same id, tag and cached pointer — the handles are identical but for the
compile-time type parameter), so a mutation through the narrowed handle is
visible through the original handle: setting `v` through the downcast handle
then reading through the original yields `v`. -/
theorem C5_downcast_alias (s : Sys) (h h₂ : StoredValue) (u : Ty)
    (rt : Runtime) (cell : Cell) (v : Val)
    (hdc : downcast h u = some h₂)
    (hrt : s.currentRuntime = some rt)
    (hget : rt.stored_values.get h.id = some cell)
    (hflag : cell.flag = .free)
    (hptr : cell.ptr = h.inner)
    (hty : cell.val.tyId = h.ty)
    (hv : v.tyId = h.ty) :
    h₂.id = h.id ∧ h₂ = h ∧
    try_set_value s h₂ v = .ok (none, s.writeCell h.id v) ∧
    try_with_value (s.writeCell h.id v) h (fun x => x) = .ok (some v) := by
  have hu : u = h.ty := by
    by_contra hne
    simp [downcast, hne] at hdc
  have hh : h₂ = h := by
    simp [downcast, hu] at hdc
    exact hdc.symm
  subst hh
  refine ⟨rfl, rfl, try_set_value_of_present s h₂ v rt cell hrt hget hflag hty, ?_⟩
  have hrt2 := Sys.currentRuntime_writeCell s rt h₂.id v hrt
  have hget2 : (rt.stored_values.modifyCell h₂.id fun c => { c with val := v }).get h₂.id
      = some { cell with val := v } := by
    rw [SlotMap.get_modify_self, hget]
    rfl
  have hinner := get_inner_some _ h₂ _ { cell with val := v } hrt2 hget2
    (by simp [hflag]) hptr hv
  rw [try_with_value_of_some _ _ _ _ hinner]

/-- C5 witness: store 7, downcast to the integer tag, set 5 through the
narrowed handle, read 5 through the original. -/
theorem C5_downcast_alias_witness :
    (downcast h0 .tInt).isSome ∧
      try_with_value (sys1.writeCell h0.id (.vInt 5)) h0 (fun x => x)
        = .ok (some (.vInt 5)) := by
  have H := C5_downcast_alias sys1 h0 h0 .tInt
    ⟨0, ⟨[⟨0, some ⟨0, .free, .vInt 7⟩⟩]⟩, [⟨0, 0⟩]⟩ ⟨0, .free, .vInt 7⟩ (.vInt 5)
    rfl rfl rfl rfl rfl rfl rfl
  exact ⟨by decide, H.2.2.2⟩

/-! ### C6 — reentrancy detection -/

/-- C6: reentrancy detection — in the state in which `try_update_value` runs
the caller's closure (by definition `try_update_value` evaluates the closure
against `s.setFlag h.id .writing`: the write guard is held), any nested
`update_value` / `try_update_value` / `with_value` / `try_with_value` on the
same handle panics with a borrow error at the point of the reentrant access,
rather than proceeding. -/
theorem C6_reentrant_panics (s : Sys) (h : StoredValue) (rt : Runtime)
    (cell : Cell)
    (hrt : s.currentRuntime = some rt)
    (hget : rt.stored_values.get h.id = some cell) :
    (∀ (α : Type) (f : Val → Val × α),
      try_update_value (s.setFlag h.id .writing) h f = .error .borrowError) ∧
    (∀ (α : Type) (f : Val → α),
      try_with_value (s.setFlag h.id .writing) h f = .error .borrowError) ∧
    (∀ (α : Type) (f : Val → Val × α),
      update_value (s.setFlag h.id .writing) h f = .error .borrowError) ∧
    (∀ (α : Type) (f : Val → α),
      with_value (s.setFlag h.id .writing) h f = .error .borrowError) := by
  have hrt2 := Sys.currentRuntime_setFlag s rt h.id .writing hrt
  have hget2 : (rt.stored_values.modifyCell h.id fun c => { c with flag := .writing }).get h.id
      = some { cell with flag := .writing } := by
    rw [SlotMap.get_modify_self, hget]
    rfl
  have hinner := get_inner_panic_of_writing _ h _ { cell with flag := .writing }
    hrt2 hget2 rfl
  refine ⟨fun α f => try_update_value_of_panic _ h f _ hinner,
    fun α f => try_with_value_of_panic _ h f _ hinner, ?_, ?_⟩
  · intro α f
    rw [update_value, try_update_value_of_panic _ h f _ hinner]
  · intro α f
    rw [with_value, try_with_value_of_panic _ h f _ hinner]

/-- C6 witness: a nested update and a nested read during an update of the
concrete stored slot both panic with the borrow error. -/
theorem C6_reentrant_panics_witness :
    try_update_value sys1mid h0 (fun v => (v, ())) = .error .borrowError ∧
      try_with_value sys1mid h0 (fun x => x) = .error .borrowError := by
  have H := C6_reentrant_panics sys1 h0
    ⟨0, ⟨[⟨0, some ⟨0, .free, .vInt 7⟩⟩]⟩, [⟨0, 0⟩]⟩ ⟨0, .free, .vInt 7⟩ rfl rfl
  exact ⟨H.1 Unit (fun v => (v, ())), H.2.1 Val (fun x => x)⟩

/-! ### C7 — `try_with_value` result characterization -/

/-- C7 (amended): `try_with_value f` returns the empty result exactly when the
slot lookup comes up empty — no active runtime, id absent or stale, or the
live cell fails the pointer-identity/type check; when the cell is found but a
write guard is held it panics with a borrow error instead of returning empty;
in the remaining case it applies `f` to a reference to the payload and returns
`some` of its result. -/
theorem C7_try_with_cases {α : Type} (s : Sys) (h : StoredValue) (f : Val → α) :
    (s.currentRuntime = none → try_with_value s h f = .ok none) ∧
    (∀ rt, s.currentRuntime = some rt →
      (rt.stored_values.get h.id = none → try_with_value s h f = .ok none) ∧
      (∀ cell, rt.stored_values.get h.id = some cell →
        (cell.flag = .writing → try_with_value s h f = .error .borrowError) ∧
        (cell.flag ≠ .writing →
          (¬(cell.ptr = h.inner ∧ cell.val.tyId = h.ty) →
            try_with_value s h f = .ok none) ∧
          ((cell.ptr = h.inner ∧ cell.val.tyId = h.ty) →
            try_with_value s h f = .ok (some (f cell.val)))))) := by
  refine ⟨fun hrt =>
      try_with_value_of_none s h f (get_inner_none_of_noRuntime s h hrt),
    fun rt hrt => ⟨fun hget =>
      try_with_value_of_none s h f (get_inner_none_of_missing s h rt hrt hget),
      fun cell hget => ⟨fun hw => try_with_value_of_panic s h f _
          (get_inner_panic_of_writing s h rt cell hrt hget hw),
        fun hnw => ⟨fun hmm => try_with_value_of_none s h f
            (get_inner_none_of_mismatch s h rt cell hrt hget hnw hmm),
          fun hok => try_with_value_of_some s h cell f
            (get_inner_some s h rt cell hrt hget hnw hok.1 hok.2)⟩⟩⟩⟩

/-- C7 counterexample: with the slot present but a write guard held,
`try_with_value` does not return the empty result the claim predicts — it
panics with a borrow error. -/
theorem C7_write_guard_cex :
    try_with_value sys1mid h0 (fun x => x) = .error .borrowError ∧
    (Except.error Panic.borrowError : Except Panic (Option Val)) ≠ .ok none := by
  exact ⟨rfl, by simp⟩

/-- C7 witness: on the live concrete slot the reader is applied and returned. -/
theorem C7_try_with_cases_witness :
    try_with_value sys1 h0 (fun x => x) = .ok (some (.vInt 7)) := by
  have H := C7_try_with_cases sys1 h0 (fun x => x)
  have H2 := (H.2 ⟨0, ⟨[⟨0, some ⟨0, .free, .vInt 7⟩⟩]⟩, [⟨0, 0⟩]⟩ rfl).2
    ⟨0, .free, .vInt 7⟩ rfl
  exact (H2.2 (by decide)).2 ⟨rfl, rfl⟩

/-! ### C8 — set semantics -/

/-- C8: with the slot present (live, unborrowed, type-matching cell),
`try_set_value v` replaces the stored payload with `v` and returns the empty
result, and `set_value v` performs the same replacement; with the slot missing
from the active runtime, `try_set_value v` hands the rejected input value back
to the caller as `some v`. -/
theorem C8_set_semantics (s : Sys) (h : StoredValue) (v : Val) (rt : Runtime)
    (hrt : s.currentRuntime = some rt) :
    (rt.stored_values.get h.id = none →
      try_set_value s h v = .ok (some v, s)) ∧
    (∀ cell, rt.stored_values.get h.id = some cell → cell.flag = .free →
      cell.val.tyId = h.ty →
      try_set_value s h v = .ok (none, s.writeCell h.id v) ∧
      set_value s h v = .ok (s.writeCell h.id v) ∧
      (s.writeCell h.id v).currentRuntime =
        some { rt with stored_values :=
          rt.stored_values.modifyCell h.id fun c => { c with val := v } } ∧
      (rt.stored_values.modifyCell h.id fun c => { c with val := v }).get h.id
        = some { cell with val := v }) := by
  refine ⟨fun hget => try_set_value_of_missing s h v rt hrt hget, ?_⟩
  intro cell hget hflag hty
  have hset := try_set_value_of_present s h v rt cell hrt hget hflag hty
  refine ⟨hset, by rw [set_value, hset],
    Sys.currentRuntime_writeCell s rt h.id v hrt, ?_⟩
  rw [SlotMap.get_modify_self, hget]
  rfl

/-- C8 witness: replacing the live 7 with 5 succeeds and stores 5; on the
disposed state the rejected 5 comes back. -/
theorem C8_set_semantics_witness :
    try_set_value sys1 h0 (.vInt 5) = .ok (none, sys1.writeCell h0.id (.vInt 5)) ∧
      try_set_value sys2 h0 (.vInt 5) = .ok (some (.vInt 5), sys2) := by
  have Hlive := C8_set_semantics sys1 h0 (.vInt 5)
    ⟨0, ⟨[⟨0, some ⟨0, .free, .vInt 7⟩⟩]⟩, [⟨0, 0⟩]⟩ rfl
  have Hgone := C8_set_semantics sys2 h0 (.vInt 5) ⟨0, ⟨[⟨1, none⟩]⟩, [⟨0, 0⟩]⟩ rfl
  exact ⟨(Hlive.2 ⟨0, .free, .vInt 7⟩ rfl rfl rfl).1, Hgone.1 rfl⟩

/-! ### C9 — no-runtime failures vs. disposed slots -/

/-- C9 (amended): the no-runtime failure is distinct only internally —
`with_runtime` reports the labelled `noRuntime` error — but the public handle
operations discard the distinction via `.ok().flatten()`: with no active
runtime the fallible reads and updates return exactly the empty results they
return for a disposed slot, and the strict variants panic with the same
message; `try_set_value` under no runtime even returns `none` — its success
indicator — silently dropping the value, while for a disposed slot it returns
the value back. A caller cannot distinguish "no runtime" from "slot disposed"
from the read operations' results. -/
theorem C9_no_runtime_collapsed (s s' : Sys) (h : StoredValue) (rt' : Runtime)
    (hno : s.currentRuntime = none)
    (hrt' : s'.currentRuntime = some rt')
    (hgone : rt'.stored_values.get h.id = none) :
    (∀ (α : Type) (f : Runtime → α), with_runtime s f = .error .noRuntime) ∧
    (∀ (α : Type) (f : Val → α),
      try_with_value s h f = .ok none ∧ try_with_value s' h f = .ok none) ∧
    try_get_value s h = try_get_value s' h ∧
    (∀ (α : Type) (f : Val → Val × α),
      try_update_value s h f = .ok (none, s) ∧
      try_update_value s' h f = .ok (none, s')) ∧
    get_value s h = get_value s' h ∧
    get_value s h = .error (.expectFailed "could not get stored value") ∧
    (∀ v, try_set_value s h v = .ok (none, s)) ∧
    (∀ v, try_set_value s' h v = .ok (some v, s')) := by
  have hi := get_inner_none_of_noRuntime s h hno
  have hi' := get_inner_none_of_missing s' h rt' hrt' hgone
  have hw : ∀ (α : Type) (f : Val → α), try_with_value s h f = .ok none :=
    fun α f => try_with_value_of_none s h f hi
  have hw' : ∀ (α : Type) (f : Val → α), try_with_value s' h f = .ok none :=
    fun α f => try_with_value_of_none s' h f hi'
  refine ⟨fun α f => by rw [with_runtime, hno],
    fun α f => ⟨hw α f, hw' α f⟩,
    (hw _ _).trans (hw' _ _).symm,
    fun α f => ⟨try_update_value_of_none s h f hi, try_update_value_of_none s' h f hi'⟩,
    ?_, get_value_of_none s h (hw _ _),
    fun v => try_set_value_of_noRuntime s h v hno,
    fun v => try_set_value_of_missing s' h v rt' hrt' hgone⟩
  rw [get_value_of_none s h (hw _ _), get_value_of_none s' h (hw' _ _)]

/-- C9 counterexample: at two concrete states — no runtime at all, and a
runtime whose slot was disposed — `try_get_value` and the strict `get_value`
yield identical results, so the caller cannot tell the failures apart;
`try_set_value` with no runtime even reports success while dropping the
value. -/
theorem C9_indistinguishable_cex :
    try_get_value sysNoRt h0 = .ok none ∧
    try_get_value sys2 h0 = .ok none ∧
    get_value sysNoRt h0 = .error (.expectFailed "could not get stored value") ∧
    get_value sys2 h0 = .error (.expectFailed "could not get stored value") ∧
    try_set_value sysNoRt h0 (.vInt 5) = .ok (none, sysNoRt) := by
  exact ⟨rfl, rfl, rfl, rfl, rfl⟩

/-- C9 witness: the amended claim applied to the concrete no-runtime and
disposed states. -/
theorem C9_no_runtime_collapsed_witness :
    with_runtime sysNoRt (fun rt => rt.rid) = .error .noRuntime ∧
      try_get_value sysNoRt h0 = try_get_value sys2 h0 := by
  have H := C9_no_runtime_collapsed sysNoRt sys2 h0 ⟨0, ⟨[⟨1, none⟩]⟩, [⟨0, 0⟩]⟩
    rfl rfl rfl
  exact ⟨H.1 Nat (fun rt => rt.rid), H.2.2.1⟩

/-! ### C10 — dispose only affects its own slot -/

/-- `get_inner` is determined by `lookupCell`. -/
theorem get_inner_eq_lookup (s : Sys) (h : StoredValue) :
    get_inner s h =
      match lookupCell s h with
      | none => .ok none
      | some cell =>
        match cell.flag with
        | .writing => .error .borrowError
        | _ =>
          if cell.ptr = h.inner ∧ cell.val.tyId = h.ty then .ok (some cell)
          else .ok none := by
  cases hrt : s.currentRuntime with
  | none => simp [get_inner, lookupCell, hrt]
  | some rt => simp [get_inner, lookupCell, hrt]

/-- Two states with the same lookup for a handle agree on `get_inner`. -/
theorem get_inner_congr (s₁ s₂ : Sys) (h : StoredValue)
    (hl : lookupCell s₁ h = lookupCell s₂ h) :
    get_inner s₁ h = get_inner s₂ h := by
  rw [get_inner_eq_lookup, get_inner_eq_lookup, hl]

/-- Two states agreeing on `get_inner` agree on `try_with_value`. -/
theorem try_with_value_congr {α : Type} (s₁ s₂ : Sys) (h : StoredValue)
    (f : Val → α) (hg : get_inner s₁ h = get_inner s₂ h) :
    try_with_value s₁ h f = try_with_value s₂ h f := by
  rw [try_with_value, try_with_value, hg]

/-- C10: frame — disposing one handle removes only that handle's slot: for
every handle with a distinct slot id, the arena's answer, `get_inner`, every
fallible read, and the strict `get_value` are unchanged by the dispose. -/
theorem C10_dispose_frame (s : Sys) (h h₂ : StoredValue)
    (hne : h₂.id ≠ h.id) :
    (∀ rt, s.currentRuntime = some rt →
      ∃ rt', (dispose s h).currentRuntime = some rt' ∧
        rt'.stored_values.get h₂.id = rt.stored_values.get h₂.id) ∧
    get_inner (dispose s h) h₂ = get_inner s h₂ ∧
    (∀ (α : Type) (f : Val → α),
      try_with_value (dispose s h) h₂ f = try_with_value s h₂ f) ∧
    try_get_value (dispose s h) h₂ = try_get_value s h₂ ∧
    get_value (dispose s h) h₂ = get_value s h₂ := by
  have hl : lookupCell (dispose s h) h₂ = lookupCell s h₂ := by
    cases hrt : s.currentRuntime with
    | none => simp [lookupCell, dispose, hrt]
    | some rt =>
      rw [lookupCell, lookupCell, hrt, Sys.currentRuntime_dispose s rt h hrt]
      simp [SlotMap.get_remove_other rt.stored_values h.id h₂.id hne]
  have hg := get_inner_congr _ _ h₂ hl
  have htw : ∀ (α : Type) (f : Val → α),
      try_with_value (dispose s h) h₂ f = try_with_value s h₂ f :=
    fun α f => try_with_value_congr _ _ h₂ f hg
  refine ⟨?_, hg, htw, htw _ _, ?_⟩
  · intro rt hrt
    exact ⟨_, Sys.currentRuntime_dispose s rt h hrt,
      SlotMap.get_remove_other rt.stored_values h.id h₂.id hne⟩
  · rw [get_value, get_value, try_get_value, try_get_value, htw]

/-- C10 witness: in a two-slot arena, disposing the first slot leaves the
second slot's reads unchanged. -/
theorem C10_dispose_frame_witness :
    try_get_value (dispose sys3 h0) h1 = try_get_value sys3 h1 ∧
      try_get_value (dispose sys3 h0) h1 = .ok (some (.vStr "x")) := by
  have H := C10_dispose_frame sys3 h0 h1 (by decide)
  exact ⟨H.2.2.2.1, by rw [H.2.2.2.1]; rfl⟩
end LeptosStored
